import Mathlib

/-!
Verification of the scView AI-assisted search orchestration.

This file gives a shallow embedding of the search-job orchestrator of the
scView service catalogue: the response extractor `_extract_json_from_response`
and the two-step search `perform_search` from `ServiceCatalogue/ai_service.py`,
and the launch / background-thread endpoints `ai_search_initiate` /
`run_search` from `ServiceCatalogue/views.py`, together with theorems about
the properties claimed for them.

Strings from the program are modelled as `List Char` (with `String` wrappers
at the boundaries); collaborator calls (catalogue queries, the LLM endpoint,
`json.loads`) are supplied by an explicit environment record, and the
background thread's session mutations are modelled as explicit state passing.
-/

namespace ScView

/-- Whitespace characters removed by Python `str.strip()` (ASCII subset). -/
def isPySpace (c : Char) : Bool :=
  c = ' ' || c = '\t' || c = '\n' || c = '\r' || c = '\x0b' || c = '\x0c'

/-- Python `s.strip()`: remove leading and trailing whitespace. -/
def pyStrip (s : List Char) : List Char :=
  List.rdropWhile isPySpace (List.dropWhile isPySpace s)

/-- Python `s.find(sub)`: index of the first occurrence of `sub` in `s`
(`none` for Python's `-1`). -/
def findSub (sub hay : List Char) : Option Nat :=
  (List.range (hay.length + 1)).find? (fun i => sub.isPrefixOf (hay.drop i))

/-- Python `s.rfind(sub)`: index of the last occurrence of `sub` in `s`
(`none` for Python's `-1`). -/
def rfindSub (sub hay : List Char) : Option Nat :=
  (List.range (hay.length + 1)).reverse.find? (fun i => sub.isPrefixOf (hay.drop i))

def thinkOpenTag : List Char := "<think>".toList

def thinkCloseTag : List Char := "</think>".toList

/-- Python `re.sub(r'<think>.*?</think>', '', s, flags=re.DOTALL)`:
leftmost-first non-greedy matches are removed and scanning resumes after each
match (it does not rescan text formed by a removal).  Structural fuel is used
for termination; `s.length + 1` always suffices since every removal consumes
at least 15 characters of the remaining text. -/
def removeThinksAux : Nat → List Char → List Char
  | 0, s => s
  | fuel + 1, s =>
    match findSub thinkOpenTag s with
    | none => s
    | some i =>
      let rest := s.drop (i + thinkOpenTag.length)
      match findSub thinkCloseTag rest with
      | none => s
      | some j =>
        s.take i ++ removeThinksAux fuel (rest.drop (j + thinkCloseTag.length))

def removeThinks (s : List Char) : List Char :=
  removeThinksAux (s.length + 1) s

/-- The markdown code-fence stage of `_extract_json_from_response`: if the
text starts with a triple backtick fence, keep only the (stripped) content
between the first newline and the last closing fence. -/
def fenceStep (r : List Char) : List Char :=
  if "```".toList.isPrefixOf r then
    match findSub ['\n'] r with
    | none => r
    | some nl =>
      match rfindSub "```".toList r with
      | none => r
      | some ci =>
        if nl < ci then pyStrip ((r.drop (nl + 1)).take (ci - (nl + 1))) else r
  else r

/-- Narrow `r` to the span from position `i` to the last occurrence of
`endChar`, provided that occurrence is strictly after `i`. -/
def braceNarrow (r : List Char) (i : Nat) (endChar : Char) : List Char :=
  match rfindSub [endChar] r with
  | none => r
  | some e => if i < e then (r.drop i).take (e + 1 - i) else r

/-- The final stage of `_extract_json_from_response`: if the text is empty or
does not start with a brace or bracket, narrow to the span from the first
opening character to the last matching closing character. -/
def braceStep (r : List Char) : List Char :=
  let needNarrow :=
    match r with
    | [] => true
    | c :: _ => !(c = '{' || c = '[')
  if needNarrow then
    match findSub ['{'] r with
    | some i => braceNarrow r i '}'
    | none =>
      match findSub ['['] r with
      | some i => braceNarrow r i ']'
      | none => r
  else r

/-- `_extract_json_from_response` from `ai_service.py`, over character
lists: strip, remove reasoning tags, strip, unwrap a markdown fence, then
narrow to brace/bracket boundaries. -/
def extract_json (s : List Char) : List Char :=
  braceStep (fenceStep (pyStrip (removeThinks (pyStrip s))))

/-- `_extract_json_from_response` at the `String` level. -/
def extractS (s : String) : String :=
  String.mk (extract_json s.toList)

/-- Variant of the final stage in which the one character indexing operation
the Python code performs (`response[start_idx]`, to choose the matching
closing character) is checked, returning `none` where Python would raise
`IndexError`. -/
def braceStepChecked (r : List Char) : Option (List Char) :=
  let needNarrow :=
    match r with
    | [] => true
    | c :: _ => !(c = '{' || c = '[')
  if needNarrow then
    let start? :=
      match findSub ['{'] r with
      | some i => some i
      | none => findSub ['['] r
    match start? with
    | none => some r
    | some i =>
      match r[i]? with
      | none => none
      | some c =>
        let ec := if c = '{' then '}' else ']'
        some (braceNarrow r i ec)
  else some r

/-- `_extract_json_from_response` with checked indexing: the only stage that
indexes into the string is the brace-narrowing stage. -/
def extract_json_checked (s : List Char) : Option (List Char) :=
  braceStepChecked (fenceStep (pyStrip (removeThinks (pyStrip s))))

/-! ## Data model for the two-step search (`perform_search`) -/

/-- A scalar JSON value appearing in a parsed model reply. -/
inductive SVal where
  | s (v : String)
  | b (v : Bool)
  | n (v : Int)
deriving DecidableEq, Repr

/-- A JSON object from a parsed model reply, as an association list
(insertion-ordered, like a Python dict). -/
abbrev JObj : Type := List (String × SVal)

/-- One chat message (`{'role': ..., 'content': ...}`). -/
structure Msg where
  role : String
  content : String
deriving DecidableEq, Repr

/-- The fields `perform_search` reads from the parsed step-1 reply, with the
`dict.get` defaults used by the code (`[]`, `''`, `False`). -/
structure Step1Parsed where
  services_to_check : List String := []
  preliminary_note : SVal := .s ""
  is_it_related : SVal := .b false
deriving DecidableEq, Repr

/-- The fields `perform_search` reads from the parsed step-2 reply, with the
`dict.get` defaults used by the code. -/
structure Step2Parsed where
  overall_assessment : SVal := .s ""
  recommended_services : List JObj := []
  also_checked : List JObj := []
deriving DecidableEq, Repr

/-- The `AISearchLog` audit record (`models.py`), restricted to the fields
`perform_search` writes; `saved` records whether `log_entry.save()` ran. -/
structure AISearchLog where
  step1_completed : Bool := false
  step2_needed : Bool := false
  services_requested : Option (List String) := none
  services_recommended : Option (List SVal) := none
  tokens_used_step1 : Option Int := none
  tokens_used_step2 : Option Int := none
  error_occurred : Bool := false
  error_message : Option String := none
  duration_seconds : Option Int := none
  saved : Bool := false
deriving DecidableEq, Repr

/-- The result dict returned by `perform_search`; keys absent from a given
return path are `none`. -/
structure SearchResult where
  success : Bool
  step1_only : Option Bool := none
  step1_completed : Option Bool := none
  step2_completed : Option Bool := none
  message : Option SVal := none
  is_it_related : Option SVal := none
  services_checked : Option (List String) := none
  overall_assessment : Option SVal := none
  recommended_services : Option (List JObj) := none
  also_checked : Option (List JObj) := none
  error : Option String := none
deriving DecidableEq, Repr

/-- What one run of `perform_search` produced: the returned dict, the audit
record, and instrumentation recording the argument of every LLM API call,
every catalogue detail fetch, and every progress-callback invocation, in
order. -/
structure SearchOutcome where
  result : SearchResult
  log : AISearchLog
  apiCalls : List (List Msg)
  detailCalls : List (List String)
  progressCalls : List String
deriving DecidableEq, Repr

/-- Collaborators of `perform_search`, supplied explicitly: the formatted
catalogue listings, the two prompt templates (`str.format` on the template
files is abstracted as a function of the substituted values), the LLM
endpoint (`_call_openai_api`; an `Except.error` models a raised exception,
carrying `str(e)`), `json.loads` combined with the subsequent `dict.get`
field reads, the detail fetch `_get_service_details` with its formatter, and
the measured wall-clock duration. -/
structure Env where
  categoriesText : String
  servicesText : String
  renderStep1 : String → String → String → String → String
  renderStep2 : String → String → String → String → String
  callApi : List Msg → Except String (String × Option Int)
  parse1 : String → Except String Step1Parsed
  parse2 : String → Except String Step2Parsed
  detailsFor : List String → List (String × JObj)
  formatDetails : List (String × JObj) → String
  elapsed : Int

/-- The `language_names` mapping in `perform_search`, with the
`user_language.upper()` fallback. -/
def languageName (code : String) : String :=
  if code = "en" then "English"
  else if code = "de" then "German (Deutsch)"
  else if code = "fr" then "French (Français)"
  else if code = "es" then "Spanish (Español)"
  else code.toUpper

/-- Python dict assignment `o[k] = v`: replace the value of an existing key
in place, else append the new key at the end. -/
def setKey (o : JObj) (k : String) (v : SVal) : JObj :=
  if (List.lookup k o).isSome then
    o.map (fun p => if p.1 = k then (k, v) else p)
  else o ++ [(k, v)]

/-- The enrichment body of `perform_search` applied to one recommended /
also-checked entry: look up `service.get('service_key', '')` in the fetched
detail map and, on a hit, set `service_name` and `service_version` from that
record (with the `dict.get` defaults `service_key` and `''`). -/
def enrichService (details : List (String × JObj)) (service : JObj) : JObj :=
  match (List.lookup "service_key" service).getD (.s "") with
  | .s key =>
    match List.lookup key details with
    | some d =>
      setKey (setKey service "service_name" ((List.lookup "name" d).getD (.s key)))
        "service_version" ((List.lookup "version" d).getD (.s ""))
    | none => service
  | _ => service

/-- The system message list of the step-1 call. -/
def step1Messages (env : Env) (userInput userLang : String) : List Msg :=
  [⟨"system", env.renderStep1 (languageName userLang) env.categoriesText
      env.servicesText userInput⟩]

/-- The three-message conversation of the step-2 call: the step-1 system
prompt, the raw step-1 assistant reply, and the rendered step-2 user
prompt. -/
def step2Messages (env : Env) (userInput userLang step1Response : String)
    (services_to_check : List String) : List Msg :=
  [⟨"system", env.renderStep1 (languageName userLang) env.categoriesText
      env.servicesText userInput⟩,
   ⟨"assistant", step1Response⟩,
   ⟨"user", env.renderStep2 (languageName userLang) userInput
      (String.intercalate ", " services_to_check)
      (env.formatDetails (env.detailsFor services_to_check))⟩]

/-- The `except Exception` tail of `perform_search`: mark the audit record
with the error, record the duration, save it, and return the failure dict. -/
def searchFailure (env : Env) (log : AISearchLog) (e : String)
    (apiCalls : List (List Msg)) (detailCalls : List (List String))
    (progressCalls : List String) : SearchOutcome :=
  { result := { success := false, error := some e },
    log := { log with
      error_occurred := true,
      error_message := some e,
      duration_seconds := some env.elapsed,
      saved := true },
    apiCalls := apiCalls, detailCalls := detailCalls,
    progressCalls := progressCalls }

/-- Fixed message of `ValueError(_("AI returned an empty response"))`. -/
def emptyResponseMsg : String := "AI returned an empty response"

/-- Fixed message of the step-1 `ValueError` on a JSON parse failure. -/
def step1NotJsonMsg : String :=
  "AI response was not valid JSON. The AI may need to be instructed to return JSON format."

/-- Fixed message of the step-2 `ValueError` on a JSON parse failure. -/
def step2NotJsonMsg : String := "AI response was not valid JSON"

/-- `str(KeyError('service_key'))`, raised by the list comprehension
`[s['service_key'] for s in recommended_services]` when an entry lacks the
key. -/
def serviceKeyErrorMsg : String := "\x27service_key\x27"

/-- `perform_search` from `ai_service.py`.  The progress callback is the one
`run_search` passes; its invocations are recorded in `progressCalls`. -/
def perform_search (env : Env) (userInput userLang : String) : SearchOutcome :=
  let messages1 := step1Messages env userInput userLang
  match env.callApi messages1 with
  | .error e => searchFailure env {} e [messages1] [] ["step1"]
  | .ok (step1Response, tokens1) =>
    let log1 : AISearchLog :=
      { tokens_used_step1 := tokens1, step1_completed := true }
    let jsonContent := extractS step1Response
    if jsonContent = "" then
      searchFailure env log1 emptyResponseMsg [messages1] [] ["step1"]
    else
      match env.parse1 jsonContent with
      | .error _ => searchFailure env log1 step1NotJsonMsg [messages1] [] ["step1"]
      | .ok step1Data =>
        let services_to_check := step1Data.services_to_check
        let log2 := { log1 with services_requested := some services_to_check }
        if services_to_check = [] then
          { result :=
              { success := true, step1_only := some true,
                step1_completed := some true, step2_completed := some false,
                message := some step1Data.preliminary_note,
                is_it_related := some step1Data.is_it_related },
            log := { log2 with
              step2_needed := false,
              duration_seconds := some env.elapsed,
              saved := true },
            apiCalls := [messages1], detailCalls := [],
            progressCalls := ["step1"] }
        else
          let log3 := { log2 with step2_needed := true }
          let details := env.detailsFor services_to_check
          let messages2 :=
            step2Messages env userInput userLang step1Response services_to_check
          match env.callApi messages2 with
          | .error e =>
            searchFailure env log3 e [messages1, messages2]
              [services_to_check] ["step1", "step2"]
          | .ok (step2Response, tokens2) =>
            let log4 := { log3 with tokens_used_step2 := tokens2 }
            match env.parse2 (extractS step2Response) with
            | .error _ =>
              searchFailure env log4 step2NotJsonMsg [messages1, messages2]
                [services_to_check] ["step1", "step2"]
            | .ok step2Data =>
              match step2Data.recommended_services.mapM
                  (fun s => List.lookup "service_key" s) with
              | none =>
                searchFailure env log4 serviceKeyErrorMsg [messages1, messages2]
                  [services_to_check] ["step1", "step2"]
              | some recommendedKeys =>
                let log5 :=
                  { log4 with services_recommended := some recommendedKeys }
                { result :=
                    { success := true, step1_only := some false,
                      step1_completed := some true, step2_completed := some true,
                      services_checked := some services_to_check,
                      overall_assessment := some step2Data.overall_assessment,
                      recommended_services :=
                        some (step2Data.recommended_services.map
                          (enrichService details)),
                      also_checked :=
                        some (step2Data.also_checked.map
                          (enrichService details)) },
                  log := { log5 with
                    duration_seconds := some env.elapsed,
                    saved := true },
                  apiCalls := [messages1, messages2],
                  detailCalls := [services_to_check],
                  progressCalls := ["step1", "step2"] }

/-! ## The launch endpoint and background thread (`views.py`) -/

/-- The AI search settings read by `AISearchService.__init__`. -/
structure AISettings where
  api_url : Option String
  api_key : Option String
  enabled : Bool
deriving DecidableEq, Repr

/-- `AISearchService.is_enabled`. -/
def is_enabled (st : AISettings) : Bool :=
  st.enabled && st.api_url.isSome && st.api_key.isSome

/-- One `ai_search_<id>` session entry, with the three keys written at
launch plus the keys the background thread may add. -/
structure JobEntry where
  status : String
  user_input : String
  progress : String
  result : Option SearchResult := none
  error : Option String := none
deriving DecidableEq, Repr

/-- The web session, as a keyed store of job entries. -/
abbrev Session : Type := List (String × JobEntry)

/-- The response of `ai_search_initiate`: either the success JSON with the
request id, or an error JSON with an HTTP status code. -/
inductive InitResponse where
  | accepted (request_id : String)
  | rejected (statusCode : Nat) (error : String)
deriving DecidableEq, Repr

/-- What `ai_search_initiate` did: its HTTP response, the session afterwards,
and whether the background thread was started. -/
structure InitOutcome where
  response : InitResponse
  session : Session
  threadStarted : Bool
deriving DecidableEq, Repr

/-- The session key of a job. -/
def jobKey (requestId : String) : String := "ai_search_" ++ requestId

/-- `ai_search_initiate` from `views.py`.  `body` models
`json.loads(request.body)` followed by `data.get('user_input', '')`: an
`Except.error` is a raised parse exception (caught by the catch-all and
turned into a 500), an `Except.ok` carries the raw `user_input` value.
`requestId` stands for the generated `uuid.uuid4()`. -/
def ai_search_initiate (st : AISettings) (method : String)
    (body : Except String String) (requestId : String) (session : Session) :
    InitOutcome :=
  if method ≠ "POST" then
    ⟨.rejected 405 "POST required", session, false⟩
  else if !is_enabled st then
    ⟨.rejected 503 "AI search is not enabled", session, false⟩
  else
    match body with
    | .error e => ⟨.rejected 500 e, session, false⟩
    | .ok rawInput =>
      let user_input := String.mk (pyStrip rawInput.toList)
      if user_input = "" then
        ⟨.rejected 400 "User input is required", session, false⟩
      else
        ⟨.accepted requestId,
         session ++ [(jobKey requestId,
           { status := "initiated", user_input := user_input,
             progress := "Starting AI search..." })],
         true⟩

/-- `update_progress` in `run_search`: set the `status` field of the job's
session entry; a missing entry (`KeyError`) is caught and ignored. -/
def updateStatus (session : Session) (key status : String) : Session :=
  session.map (fun p => if p.1 = key then (p.1, { p.2 with status := status }) else p)

/-- The final session write of `run_search`: set the entry's status to
`'completed'` and store the result dict; a missing entry leaves the session
unchanged, as the thread's write then fails silently. -/
def storeResult (session : Session) (key : String) (r : SearchResult) : Session :=
  session.map (fun p =>
    if p.1 = key then (p.1, { p.2 with status := "completed", result := some r }) else p)

/-- `run_search` from `ai_search_initiate`: run `perform_search` with the
progress callback, applying each callback invocation to the session in
order, then store the result under status `'completed'`.  (The `except`
branch that writes status `'error'` is unreachable through `perform_search`,
which catches every exception internally; it is not modelled.) -/
def run_search (env : Env) (userInput userLang requestId : String)
    (session : Session) : Session :=
  let o := perform_search env userInput userLang
  let key := jobKey requestId
  let s1 := o.progressCalls.foldl (fun ss st => updateStatus ss key st) session
  storeResult s1 key o.result

/-- The successive session states the background thread produces: the state
after each progress-callback write, then the state after the final result
write. -/
def run_search_states (env : Env) (userInput userLang requestId : String)
    (session : Session) : List Session :=
  let o := perform_search env userInput userLang
  let key := jobKey requestId
  let mids := (o.progressCalls.scanl (fun ss st => updateStatus ss key st) session).tail
  let s1 := o.progressCalls.foldl (fun ss st => updateStatus ss key st) session
  mids ++ [storeResult s1 key o.result]

/-- The sequence of values the job's `status` field takes over a full run,
from creation by `ai_search_initiate` to the final write of `run_search`:
`'initiated'`, then each progress-callback value, then `'completed'`. -/
def statusHistory (o : SearchOutcome) : List String :=
  "initiated" :: (o.progressCalls ++ ["completed"])

/-- The string value of a scalar JSON value, if it is a string. -/
def svalStr : SVal → Option String
  | .s v => some v
  | _ => none

/-- All strings stored in an audit record: the requested keys, the
recommended keys that are strings, and the error message. -/
def auditStrings (l : AISearchLog) : List String :=
  l.services_requested.getD [] ++
    (l.services_recommended.getD []).filterMap svalStr ++
    (match l.error_message with
     | some m => [m]
     | none => [])

/-- A concrete environment whose LLM call fails with a timeout-style
exception message. -/
def envApiError : Env :=
  { categoriesText := "cats", servicesText := "svcs",
    renderStep1 := fun _ _ _ _ => "P1", renderStep2 := fun _ _ _ _ => "P2",
    callApi := fun _ => .error "AI API request timed out",
    parse1 := fun _ => .error "no parse", parse2 := fun _ => .error "no parse",
    detailsFor := fun _ => [], formatDetails := fun _ => "", elapsed := 3 }

/-- A concrete environment whose step-1 reply parses to an empty candidate
list. -/
def envTriageOnly : Env :=
  { categoriesText := "", servicesText := "",
    renderStep1 := fun _ _ _ _ => "P1", renderStep2 := fun _ _ _ _ => "P2",
    callApi := fun _ => .ok ("triage", some 7),
    parse1 := fun _ => .ok {}, parse2 := fun _ => .error "no parse",
    detailsFor := fun _ => [], formatDetails := fun _ => "", elapsed := 3 }

/-- A concrete environment that reaches step 2 and succeeds. -/
def envTwoStep : Env :=
  { categoriesText := "", servicesText := "",
    renderStep1 := fun _ _ _ _ => "P1", renderStep2 := fun _ _ _ _ => "P2",
    callApi := fun ms =>
      if ms.length = 1 then .ok ("r1", some 1) else .ok ("[2]", some 2),
    parse1 := fun _ => .ok { services_to_check := ["CAT-S"] },
    parse2 := fun _ => .ok {},
    detailsFor := fun _ => [], formatDetails := fun _ => "", elapsed := 3 }

/-- A concrete environment whose model reply echoes the user's input string
back as a candidate service key, and whose step-2 call then fails. -/
def envEchoInput : Env :=
  { categoriesText := "", servicesText := "",
    renderStep1 := fun _ _ _ _ => "P1", renderStep2 := fun _ _ _ _ => "P2",
    callApi := fun ms =>
      if ms.length = 1 then .ok ("r1", none) else .error "step2 down",
    parse1 := fun _ => .ok { services_to_check := ["my printer is broken"] },
    parse2 := fun _ => .error "no parse",
    detailsFor := fun _ => [], formatDetails := fun _ => "", elapsed := 3 }

/-- A session holding one freshly initiated job with id `j1`. -/
def sessJ1 : Session :=
  [("ai_search_j1",
    { status := "initiated", user_input := "help",
      progress := "Starting AI search..." })]

/-- Settings with the feature enabled and fully configured. -/
def stOn : AISettings :=
  { api_url := some "https://api.example", api_key := some "key",
    enabled := true }

/-! ## Helper lemmas about the string primitives -/

theorem findSub_isPrefixOf {sub hay : List Char} {i : Nat}
    (h : findSub sub hay = some i) : sub.isPrefixOf (hay.drop i) = true := by
  unfold findSub at h
  have h2 := List.find?_some h
  simpa using h2

theorem rfindSub_isPrefixOf {sub hay : List Char} {i : Nat}
    (h : rfindSub sub hay = some i) : sub.isPrefixOf (hay.drop i) = true := by
  unfold rfindSub at h
  have h2 := List.find?_some h
  simpa using h2

theorem findSub_singleton {c : Char} {hay : List Char} {i : Nat}
    (h : findSub [c] hay = some i) : hay[i]? = some c := by
  have hp := List.isPrefixOf_iff_prefix.mp (findSub_isPrefixOf h)
  obtain ⟨t, ht⟩ := hp
  have : (hay.drop i)[0]? = some c := by rw [← ht]; simp
  rwa [List.getElem?_drop, Nat.add_zero] at this

theorem rfindSub_singleton {c : Char} {hay : List Char} {i : Nat}
    (h : rfindSub [c] hay = some i) : hay[i]? = some c := by
  have hp := List.isPrefixOf_iff_prefix.mp (rfindSub_isPrefixOf h)
  obtain ⟨t, ht⟩ := hp
  have : (hay.drop i)[0]? = some c := by rw [← ht]; simp
  rwa [List.getElem?_drop, Nat.add_zero] at this

theorem head?_dropWhile_not {p : Char → Bool} {l : List Char} {a : Char}
    (h : (l.dropWhile p).head? = some a) : p a = false := by
  induction l with
  | nil => simp at h
  | cons b bs ih =>
    rw [List.dropWhile_cons] at h
    by_cases hb : p b = true
    · exact ih (by rwa [if_pos hb] at h)
    · rw [if_neg hb] at h
      simp only [List.head?_cons, Option.some.injEq] at h
      rw [← h]
      exact Bool.eq_false_iff.mpr hb

theorem head?_rdropWhile {p : Char → Bool} (l : List Char) :
    (List.rdropWhile p l).head? = none ∨
      (List.rdropWhile p l).head? = l.head? := by
  obtain ⟨t, ht⟩ := List.rdropWhile_prefix p l
  cases hr : List.rdropWhile p l with
  | nil => exact Or.inl rfl
  | cons x xs =>
    right
    rw [hr] at ht
    rw [← ht]
    rfl

theorem dropWhile_eq_self_of_head? {p : Char → Bool} {l : List Char}
    (h : ∀ a, l.head? = some a → p a = false) : l.dropWhile p = l := by
  cases l with
  | nil => rfl
  | cons b bs =>
    rw [List.dropWhile_cons, if_neg]
    simp [h b rfl]

theorem pyStrip_idem (s : List Char) : pyStrip (pyStrip s) = pyStrip s := by
  unfold pyStrip
  rw [dropWhile_eq_self_of_head?, List.rdropWhile_idempotent]
  intro a ha
  rcases head?_rdropWhile (p := isPySpace) (s.dropWhile isPySpace) with h | h
  · rw [ha] at h; cases h
  · rw [ha] at h
    exact head?_dropWhile_not h.symm

theorem pyStrip_eq_self {l : List Char}
    (h1 : ∀ a, l.head? = some a → isPySpace a = false)
    (h2 : ∀ a, l.getLast? = some a → isPySpace a = false) : pyStrip l = l := by
  unfold pyStrip
  rw [dropWhile_eq_self_of_head? h1]
  rw [List.rdropWhile_eq_self_iff]
  intro hl
  have := h2 (l.getLast hl) (List.getLast?_eq_getLast l hl)
  simp [this]

theorem fenceStep_stripped {r : List Char} (hr : pyStrip r = r) :
    pyStrip (fenceStep r) = fenceStep r := by
  unfold fenceStep
  split
  · split
    · exact hr
    · split
      · exact hr
      · split
        · exact pyStrip_idem _
        · exact hr
  · exact hr

theorem pyStrip_slice {r : List Char} {i e : Nat} {oc ec : Char}
    (hoc : isPySpace oc = false) (hec : isPySpace ec = false)
    (hi : r[i]? = some oc) (he : r[e]? = some ec) (hlt : i < e) :
    pyStrip ((r.drop i).take (e + 1 - i)) = (r.drop i).take (e + 1 - i) := by
  have hel : e < r.length := (List.getElem?_eq_some.mp he).1
  apply pyStrip_eq_self
  · intro a ha
    rw [List.head?_take, if_neg (by omega : ¬(e + 1 - i = 0))] at ha
    rw [List.head?_eq_getElem?, List.getElem?_drop, Nat.add_zero, hi] at ha
    cases ha
    exact hoc
  · intro a ha
    rw [List.getLast?_eq_getElem?] at ha
    have hlen : ((r.drop i).take (e + 1 - i)).length = e + 1 - i := by
      rw [List.length_take, List.length_drop]
      omega
    rw [hlen, List.getElem?_take,
      if_pos (by omega : e + 1 - i - 1 < e + 1 - i), List.getElem?_drop,
      (by omega : i + (e + 1 - i - 1) = e), he] at ha
    cases ha
    exact hec

theorem braceNarrow_stripped {r : List Char} {i : Nat} {oc ec : Char}
    (hr : pyStrip r = r) (hoc : isPySpace oc = false)
    (hec : isPySpace ec = false) (hi : r[i]? = some oc) :
    pyStrip (braceNarrow r i ec) = braceNarrow r i ec := by
  unfold braceNarrow
  cases he : rfindSub [ec] r with
  | none => exact hr
  | some e =>
    dsimp only
    split
    next hlt => exact pyStrip_slice hoc hec hi (rfindSub_singleton he) hlt
    next => exact hr

theorem braceStep_stripped {r : List Char} (hr : pyStrip r = r) :
    pyStrip (braceStep r) = braceStep r := by
  cases r with
  | nil => decide
  | cons c cs =>
    unfold braceStep
    dsimp only
    split
    · cases h1 : findSub ['{'] (c :: cs) with
      | some i =>
        dsimp only
        exact braceNarrow_stripped hr (by decide) (by decide) (findSub_singleton h1)
      | none =>
        dsimp only
        cases h2 : findSub ['['] (c :: cs) with
        | some i =>
          dsimp only
          exact braceNarrow_stripped hr (by decide) (by decide) (findSub_singleton h2)
        | none => exact hr
    · exact hr

theorem extract_json_stripped (s : List Char) :
    pyStrip (extract_json s) = extract_json s := by
  unfold extract_json
  exact braceStep_stripped (fenceStep_stripped (pyStrip_idem _))

theorem removeThinksAux_eq_self {s : List Char} (fuel : Nat)
    (h : findSub thinkOpenTag s = none) : removeThinksAux fuel s = s := by
  cases fuel with
  | zero => rfl
  | succ n =>
    unfold removeThinksAux
    rw [h]

theorem removeThinks_eq_self {s : List Char}
    (h : findSub thinkOpenTag s = none) : removeThinks s = s :=
  removeThinksAux_eq_self _ h

theorem fenceStep_eq_self {y : List Char}
    (h : "```".toList.isPrefixOf y = false) : fenceStep y = y := by
  unfold fenceStep
  rw [h]
  simp

theorem braceStep_eq_self_of_open {c : Char} {ys : List Char}
    (h : (c = '{' || c = '[') = true) : braceStep (c :: ys) = c :: ys := by
  unfold braceStep
  simp [h]

/-! ## Helper lemmas about dict updates and session updates -/

theorem lookup_cons_self {β : Type} (k : String) (b : β) (ps : List (String × β)) :
    List.lookup k ((k, b) :: ps) = some b := by
  simp [List.lookup]

theorem lookup_cons_ne {β : Type} {k a : String} (b : β) (ps : List (String × β))
    (h : k ≠ a) : List.lookup k ((a, b) :: ps) = List.lookup k ps := by
  have hb : (k == a) = false := by simp [h]
  simp [List.lookup, hb]

theorem lookup_map_replace {o : JObj} {k : String} {v : SVal}
    (h : (List.lookup k o).isSome = true) :
    List.lookup k (o.map (fun p => if p.1 = k then (k, v) else p)) = some v := by
  induction o with
  | nil => simp at h
  | cons p ps ih =>
    obtain ⟨a, b⟩ := p
    by_cases ha : a = k
    · subst ha
      have hhead : (if (a, b).1 = a then (a, v) else (a, b)) = (a, v) := by simp
      rw [List.map_cons, hhead, lookup_cons_self]
    · have hhead : (if (a, b).1 = k then (k, v) else (a, b)) = (a, b) := by
        simp [ha]
      rw [List.map_cons, hhead, lookup_cons_ne _ _ (Ne.symm ha)]
      apply ih
      rwa [lookup_cons_ne _ _ (Ne.symm ha)] at h

theorem lookup_setKey_self (o : JObj) (k : String) (v : SVal) :
    List.lookup k (setKey o k v) = some v := by
  unfold setKey
  split
  next h => exact lookup_map_replace h
  next h =>
    induction o with
    | nil => simp [List.lookup]
    | cons p ps ih =>
      obtain ⟨a, b⟩ := p
      by_cases ha : a = k
      · exfalso
        apply h
        subst ha
        rw [lookup_cons_self]
        rfl
      · rw [List.cons_append, lookup_cons_ne _ _ (Ne.symm ha)]
        apply ih
        intro hx
        apply h
        rwa [lookup_cons_ne _ _ (Ne.symm ha)]

theorem lookup_setKey_ne (o : JObj) (k : String) (v : SVal) (f : String)
    (hf : f ≠ k) : List.lookup f (setKey o k v) = List.lookup f o := by
  unfold setKey
  split
  next h =>
    clear h
    induction o with
    | nil => rfl
    | cons p ps ih =>
      obtain ⟨a, b⟩ := p
      by_cases ha : a = k
      · subst ha
        have hhead : (if (a, b).1 = a then (a, v) else (a, b)) = (a, v) := by simp
        rw [List.map_cons, hhead, lookup_cons_ne _ _ hf, lookup_cons_ne _ _ hf]
        exact ih
      · have hhead : (if (a, b).1 = k then (k, v) else (a, b)) = (a, b) := by
          simp [ha]
        rw [List.map_cons, hhead]
        by_cases hfa : f = a
        · subst hfa
          rw [lookup_cons_self, lookup_cons_self]
        · rw [lookup_cons_ne _ _ hfa, lookup_cons_ne _ _ hfa]
          exact ih
  next h =>
    clear h
    induction o with
    | nil =>
      have hfk : (f == k) = false := by simp [hf]
      simp [List.lookup, hfk]
    | cons p ps ih =>
      obtain ⟨a, b⟩ := p
      by_cases hfa : f = a
      · subst hfa
        rw [List.cons_append, lookup_cons_self, lookup_cons_self]
      · rw [List.cons_append, lookup_cons_ne _ _ hfa, lookup_cons_ne _ _ hfa]
        exact ih

theorem lookup_updateStatus (sess : Session) (key st k : String) :
    List.lookup k (updateStatus sess key st) =
      if k = key then (List.lookup k sess).map (fun e => { e with status := st })
      else List.lookup k sess := by
  induction sess with
  | nil => simp [updateStatus, List.lookup]
  | cons p ps ih =>
    obtain ⟨a, b⟩ := p
    unfold updateStatus at ih ⊢
    rw [List.map_cons]
    by_cases ha : a = key
    · subst ha
      rw [if_pos rfl]
      by_cases hk : k = a
      · subst hk
        rw [if_pos rfl, lookup_cons_self, lookup_cons_self]
        rfl
      · rw [if_neg hk, lookup_cons_ne _ _ hk, lookup_cons_ne _ _ hk, ih, if_neg hk]
    · rw [if_neg ha]
      by_cases hk : k = a
      · subst hk
        rw [lookup_cons_self, lookup_cons_self, if_neg ha]
      · rw [lookup_cons_ne _ _ hk, lookup_cons_ne _ _ hk, ih]

theorem lookup_storeResult (sess : Session) (key k : String) (r : SearchResult) :
    List.lookup k (storeResult sess key r) =
      if k = key then
        (List.lookup k sess).map
          (fun e => { e with status := "completed", result := some r })
      else List.lookup k sess := by
  induction sess with
  | nil => simp [storeResult, List.lookup]
  | cons p ps ih =>
    obtain ⟨a, b⟩ := p
    unfold storeResult at ih ⊢
    rw [List.map_cons]
    by_cases ha : a = key
    · subst ha
      rw [if_pos rfl]
      by_cases hk : k = a
      · subst hk
        rw [if_pos rfl, lookup_cons_self, lookup_cons_self]
        rfl
      · rw [if_neg hk, lookup_cons_ne _ _ hk, lookup_cons_ne _ _ hk, ih, if_neg hk]
    · rw [if_neg ha]
      by_cases hk : k = a
      · subst hk
        rw [lookup_cons_self, lookup_cons_self, if_neg ha]
      · rw [lookup_cons_ne _ _ hk, lookup_cons_ne _ _ hk, ih]

/-! ## Case analysis of `perform_search` -/

theorem perform_search_progress (env : Env) (u lang : String) :
    (perform_search env u lang).progressCalls = ["step1"] ∨
      (perform_search env u lang).progressCalls = ["step1", "step2"] := by
  unfold perform_search
  dsimp only
  split
  · left; rfl
  · split
    · left; rfl
    · split
      · left; rfl
      · split
        · left; rfl
        · split
          · right; rfl
          · split
            · right; rfl
            · split
              · right; rfl
              · right; rfl

theorem perform_search_failure_spec (env : Env) (u lang : String)
    (h : (perform_search env u lang).result.success = false) :
    (perform_search env u lang).log.error_occurred = true ∧
      (perform_search env u lang).log.error_message =
        (perform_search env u lang).result.error ∧
      (perform_search env u lang).result.error.isSome = true ∧
      (perform_search env u lang).log.saved = true ∧
      (perform_search env u lang).log.duration_seconds = some env.elapsed := by
  revert h
  unfold perform_search
  dsimp only
  split
  · intro _; exact ⟨rfl, rfl, rfl, rfl, rfl⟩
  · split
    · intro _; exact ⟨rfl, rfl, rfl, rfl, rfl⟩
    · split
      · intro _; exact ⟨rfl, rfl, rfl, rfl, rfl⟩
      · split
        · intro h; simp at h
        · split
          · intro _; exact ⟨rfl, rfl, rfl, rfl, rfl⟩
          · split
            · intro _; exact ⟨rfl, rfl, rfl, rfl, rfl⟩
            · split
              · intro _; exact ⟨rfl, rfl, rfl, rfl, rfl⟩
              · intro h; simp at h

theorem perform_search_apiCalls_le (env : Env) (u lang : String) :
    (perform_search env u lang).apiCalls.length ≤ 2 := by
  unfold perform_search
  dsimp only
  split
  · simp [searchFailure]
  · split
    · simp [searchFailure]
    · split
      · simp [searchFailure]
      · split
        · simp
        · split
          · simp [searchFailure]
          · split
            · simp [searchFailure]
            · split
              · simp [searchFailure]
              · simp

/-! ## Claim C4: the empty-candidates triage-only completion -/

/-- C4: when the parsed step-1 reply has an empty `services_to_check` list,
`perform_search` completes with the triage-only result (`step1_only` true,
`step2_completed` false, carrying the preliminary note and the relatedness
flag), performs exactly one LLM call and no detail fetch, and saves an audit
record with `step2_needed = false`; the run is a success, not a failure. -/
theorem step1_no_candidates_completes (env : Env) (u lang r1 : String)
    (t1 : Option Int) (d1 : Step1Parsed)
    (h1 : env.callApi (step1Messages env u lang) = .ok (r1, t1))
    (h2 : extractS r1 ≠ "")
    (h3 : env.parse1 (extractS r1) = .ok d1)
    (h4 : d1.services_to_check = []) :
    perform_search env u lang =
      { result :=
          { success := true, step1_only := some true,
            step1_completed := some true, step2_completed := some false,
            message := some d1.preliminary_note,
            is_it_related := some d1.is_it_related },
        log :=
          { step1_completed := true, step2_needed := false,
            services_requested := some [], tokens_used_step1 := t1,
            duration_seconds := some env.elapsed, saved := true },
        apiCalls := [step1Messages env u lang], detailCalls := [],
        progressCalls := ["step1"] } := by
  unfold perform_search
  dsimp only
  rw [h1]
  dsimp only
  rw [if_neg h2, h3]
  dsimp only
  rw [h4]
  rfl

/-! ## Claim C5: the step-2 conversation -/

/-- C5: whenever step 2 is entered (the parsed step-1 reply has a non-empty
candidate list), the second LLM call receives exactly three messages, in
order: the step-1 system prompt with role `system`, the raw step-1 reply
with role `assistant`, and the newly rendered step-2 prompt with role
`user`. -/
theorem step2_conversation (env : Env) (u lang r1 : String)
    (t1 : Option Int) (d1 : Step1Parsed)
    (h1 : env.callApi (step1Messages env u lang) = .ok (r1, t1))
    (h2 : extractS r1 ≠ "")
    (h3 : env.parse1 (extractS r1) = .ok d1)
    (h4 : d1.services_to_check ≠ []) :
    (perform_search env u lang).apiCalls =
      [step1Messages env u lang,
       [⟨"system", env.renderStep1 (languageName lang) env.categoriesText
           env.servicesText u⟩,
        ⟨"assistant", r1⟩,
        ⟨"user", env.renderStep2 (languageName lang) u
           (String.intercalate ", " d1.services_to_check)
           (env.formatDetails (env.detailsFor d1.services_to_check))⟩]] := by
  unfold perform_search
  dsimp only
  rw [h1]
  dsimp only
  rw [if_neg h2, h3]
  dsimp only
  rw [if_neg h4]
  split
  · rfl
  · split
    · rfl
    · split
      · rfl
      · rfl

/-! ## Claim C2: idempotence of the Response Extractor -/

/-- C2 (counterexample): the Response Extractor is not idempotent on every
input string.  On the fence-wrapped input below, the first pass keeps the
text between the first newline and the last closing fence, which again
starts with a fence, so a second pass strips it down further. -/
theorem extract_not_idempotent_counterexample :
    extractS (extractS "```a\n```b\n```c```") ≠
      extractS "```a\n```b\n```c```" := by
  decide

/-- C2 (amended): the Response Extractor is idempotent on already-clean
output: whenever the extracted text contains no `<think>` opener and is
empty or starts with a brace or bracket, extracting again returns it
unchanged. -/
theorem extract_json_idempotent_of_clean (x : List Char)
    (hthink : findSub thinkOpenTag (extract_json x) = none)
    (hhead : extract_json x = [] ∨ (extract_json x).head? = some '{' ∨
      (extract_json x).head? = some '[') :
    extract_json (extract_json x) = extract_json x := by
  have hstrip : pyStrip (extract_json x) = extract_json x := extract_json_stripped x
  have hrt : removeThinks (extract_json x) = extract_json x :=
    removeThinks_eq_self hthink
  show braceStep (fenceStep (pyStrip (removeThinks (pyStrip (extract_json x))))) =
    extract_json x
  rw [hstrip, hrt, hstrip]
  rcases hhead with h | h | h
  · rw [h]; decide
  · obtain ⟨ys, hys⟩ : ∃ ys, extract_json x = '{' :: ys := by
      cases hc : extract_json x with
      | nil => rw [hc] at h; cases h
      | cons a as =>
        rw [hc] at h
        simp only [List.head?_cons, Option.some.injEq] at h
        exact ⟨as, by rw [h]⟩
    rw [hys, fenceStep_eq_self (by rfl), braceStep_eq_self_of_open (by simp)]
  · obtain ⟨ys, hys⟩ : ∃ ys, extract_json x = '[' :: ys := by
      cases hc : extract_json x with
      | nil => rw [hc] at h; cases h
      | cons a as =>
        rw [hc] at h
        simp only [List.head?_cons, Option.some.injEq] at h
        exact ⟨as, by rw [h]⟩
    rw [hys, fenceStep_eq_self (by rfl), braceStep_eq_self_of_open (by simp)]

/-- C2 (witness): a concrete input satisfying the amended theorem's
hypotheses, with the theorem applied to it. -/
theorem extract_json_idempotent_witness :
    (findSub thinkOpenTag (extract_json "reply: [1, 2]".toList) = none ∧
      (extract_json "reply: [1, 2]".toList).head? = some '[') ∧
    extract_json (extract_json "reply: [1, 2]".toList) =
      extract_json "reply: [1, 2]".toList :=
  ⟨⟨by decide, by decide⟩,
   extract_json_idempotent_of_clean _ (by decide) (Or.inr (Or.inr (by decide)))⟩

/-! ## Claim C3: totality of the Response Extractor -/

/-- C3: the Response Extractor is total: on every input string the checked
embedding (in which the single character-indexing operation the code
performs returns `none` where Python would raise `IndexError`) succeeds and
agrees with the total function; it is pure by construction. -/
theorem extract_json_total (s : List Char) :
    extract_json_checked s = some (extract_json s) := by
  unfold extract_json_checked extract_json braceStepChecked braceStep
  cases hr : fenceStep (pyStrip (removeThinks (pyStrip s))) with
  | nil => decide
  | cons c cs =>
    dsimp only
    split
    · cases h1 : findSub ['{'] (c :: cs) with
      | some i =>
        dsimp only
        rw [findSub_singleton h1]
        simp
      | none =>
        dsimp only
        cases h2 : findSub ['['] (c :: cs) with
        | some i =>
          dsimp only
          rw [findSub_singleton h2]
          simp
        | none => rfl
    · rfl

theorem lookup_run_search (env : Env) (u lang requestId : String)
    (sess : Session) (k : String) :
    List.lookup k (run_search env u lang requestId sess) =
      if k = jobKey requestId then
        (List.lookup k sess).map
          (fun e => { e with
            status := "completed",
            result := some (perform_search env u lang).result })
      else List.lookup k sess := by
  unfold run_search
  dsimp only
  rcases perform_search_progress env u lang with h | h <;> rw [h] <;>
    dsimp only [List.foldl] <;>
    rw [lookup_storeResult, lookup_updateStatus] <;>
    by_cases hk : k = jobKey requestId
  · rw [if_pos hk, if_pos hk, if_pos hk]
    cases List.lookup k sess with
    | none => rfl
    | some e => rfl
  · rw [if_neg hk, if_neg hk, if_neg hk]
  · rw [lookup_updateStatus, if_pos hk, if_pos hk, if_pos hk, if_pos hk]
    cases List.lookup k sess with
    | none => rfl
    | some e => rfl
  · rw [lookup_updateStatus, if_neg hk, if_neg hk, if_neg hk, if_neg hk]

/-! ## Claim C6: enrichment of step-2 entries -/

/-- C6: for an entry whose `service_key` is a key of the fetched detail-record
map, enrichment sets `service_name` and `service_version` from that record
(leaving every other key of the entry unchanged); an entry whose key is
absent from the map is returned exactly as the model produced it. -/
theorem enrichment_spec (details : List (String × JObj)) (service : JObj)
    (k : String)
    (hk : (List.lookup "service_key" service).getD (.s "") = .s k) :
    (List.lookup k details = none → enrichService details service = service) ∧
    (∀ d, List.lookup k details = some d →
      List.lookup "service_name" (enrichService details service) =
        some ((List.lookup "name" d).getD (.s k)) ∧
      List.lookup "service_version" (enrichService details service) =
        some ((List.lookup "version" d).getD (.s "")) ∧
      ∀ f, f ≠ "service_name" → f ≠ "service_version" →
        List.lookup f (enrichService details service) = List.lookup f service) := by
  unfold enrichService
  rw [hk]
  dsimp only
  constructor
  · intro h
    rw [h]
  · intro d hd
    rw [hd]
    dsimp only
    refine ⟨?_, ?_, ?_⟩
    · rw [lookup_setKey_ne _ _ _ _ (by decide), lookup_setKey_self]
    · rw [lookup_setKey_self]
    · intro f hf1 hf2
      rw [lookup_setKey_ne _ _ _ _ hf2, lookup_setKey_ne _ _ _ _ hf1]

/-- C6 (witness): a two-entry detail map, one matching entry that gains the
record's name and version, and one entry with an unknown key returned
unchanged. -/
theorem enrichment_witness :
    ((List.lookup "service_key"
        ([("service_key", SVal.s "CAT-S-1"), ("why", SVal.s "fits")] : JObj)).getD
          (.s "") = .s "CAT-S-1" ∧
      List.lookup "CAT-S-1"
        [("CAT-S-1", ([("name", SVal.s "Email"), ("version", SVal.s "1")] : JObj))] =
        some [("name", SVal.s "Email"), ("version", SVal.s "1")] ∧
      (List.lookup "service_key" ([("service_key", SVal.s "NOPE-X")] : JObj)).getD
          (.s "") = .s "NOPE-X" ∧
      List.lookup "NOPE-X"
        [("CAT-S-1", ([("name", SVal.s "Email"), ("version", SVal.s "1")] : JObj))] =
        none) ∧
    List.lookup "service_name"
        (enrichService
          [("CAT-S-1", [("name", SVal.s "Email"), ("version", SVal.s "1")])]
          [("service_key", SVal.s "CAT-S-1"), ("why", SVal.s "fits")]) =
      some (SVal.s "Email") ∧
    List.lookup "why"
        (enrichService
          [("CAT-S-1", [("name", SVal.s "Email"), ("version", SVal.s "1")])]
          [("service_key", SVal.s "CAT-S-1"), ("why", SVal.s "fits")]) =
      some (SVal.s "fits") ∧
    enrichService
        [("CAT-S-1", [("name", SVal.s "Email"), ("version", SVal.s "1")])]
        [("service_key", SVal.s "NOPE-X")] =
      [("service_key", SVal.s "NOPE-X")] := by
  refine ⟨by decide, ?_, ?_, ?_⟩
  · have h := (enrichment_spec
      [("CAT-S-1", [("name", SVal.s "Email"), ("version", SVal.s "1")])]
      [("service_key", SVal.s "CAT-S-1"), ("why", SVal.s "fits")]
      "CAT-S-1" (by decide)).2
      [("name", SVal.s "Email"), ("version", SVal.s "1")] (by decide)
    rw [h.1]
    decide
  · have h := (enrichment_spec
      [("CAT-S-1", [("name", SVal.s "Email"), ("version", SVal.s "1")])]
      [("service_key", SVal.s "CAT-S-1"), ("why", SVal.s "fits")]
      "CAT-S-1" (by decide)).2
      [("name", SVal.s "Email"), ("version", SVal.s "1")] (by decide)
    rw [h.2.2 "why" (by decide) (by decide)]
    decide
  · exact (enrichment_spec
      [("CAT-S-1", [("name", SVal.s "Email"), ("version", SVal.s "1")])]
      [("service_key", SVal.s "NOPE-X")] "NOPE-X" (by decide)).1 (by decide)

/-! ## Claim C9: launch validation -/

/-- C9: with the feature enabled, a POST launch whose user input strips to
empty is rejected synchronously with a 400 validation error, with no session
entry created and no background thread started; a launch whose input is
non-empty after stripping is accepted with the request id, the session entry
created in status `initiated`, and the background thread started. -/
theorem launch_contract (st : AISettings) (raw requestId : String)
    (sess : Session) (he : is_enabled st = true) :
    (pyStrip raw.toList = [] →
      ai_search_initiate st "POST" (.ok raw) requestId sess =
        ⟨.rejected 400 "User input is required", sess, false⟩) ∧
    (pyStrip raw.toList ≠ [] →
      ai_search_initiate st "POST" (.ok raw) requestId sess =
        ⟨.accepted requestId,
         sess ++ [(jobKey requestId,
           { status := "initiated",
             user_input := String.mk (pyStrip raw.toList),
             progress := "Starting AI search..." })],
         true⟩) := by
  unfold ai_search_initiate
  rw [if_neg (by simp), he, if_neg (by simp)]
  dsimp only
  constructor
  · intro h
    rw [if_pos (by rw [h])]
  · intro h
    rw [if_neg (by
      intro heq
      apply h
      have h3 := congrArg String.data heq
      simpa using h3)]

/-- C9 (witness): the whitespace-only input `"   "` is rejected with no
session entry and no thread; the input `" hi "` is accepted with the entry
created in status `initiated`. -/
theorem launch_contract_witness :
    (is_enabled stOn = true ∧ pyStrip "   ".toList = [] ∧
      pyStrip " hi ".toList ≠ []) ∧
    ai_search_initiate stOn "POST" (.ok "   ") "id1" [] =
      ⟨.rejected 400 "User input is required", [], false⟩ ∧
    ai_search_initiate stOn "POST" (.ok " hi ") "id1" [] =
      ⟨.accepted "id1",
       [(jobKey "id1",
         { status := "initiated", user_input := String.mk (pyStrip " hi ".toList),
           progress := "Starting AI search..." })],
       true⟩ := by
  refine ⟨by decide, ?_, ?_⟩
  · exact (launch_contract stOn "   " "id1" [] (by decide)).1 (by decide)
  · have h := (launch_contract stOn " hi " "id1" [] (by decide)).2 (by decide)
    simpa using h

/-! ## Claim C10: launch rejected when disabled or unconfigured -/

/-- C10: when the feature flag is off, or the API URL or API key is unset,
every POST launch request is rejected with a 503 service-unavailable error
before any job entry is created or any thread is started, regardless of the
request body. -/
theorem launch_rejected_when_disabled (st : AISettings)
    (body : Except String String) (requestId : String) (sess : Session)
    (h : st.enabled = false ∨ st.api_url = none ∨ st.api_key = none) :
    ai_search_initiate st "POST" body requestId sess =
      ⟨.rejected 503 "AI search is not enabled", sess, false⟩ := by
  have hen : is_enabled st = false := by
    unfold is_enabled
    rcases h with h | h | h <;> rw [h] <;> simp
  unfold ai_search_initiate
  rw [if_neg (by simp), hen, if_pos (by simp)]

/-! ## Claim C1: visible status values and the progress field -/

/-- C1 (counterexample): during a concrete two-step run the job's publicly
visible `status` field takes the literal value `"step1"` — the
`update_progress` callback writes the step markers into `status` itself —
which is outside the claimed value set, while the `progress` field keeps its
launch value `"Starting AI search..."` throughout and is never set to
`"step1"` or `"step2"`. -/
theorem status_literals_counterexample :
    (run_search_states envTwoStep "help" "en" "j1" sessJ1).head? = some
      [("ai_search_j1",
        { status := "step1", user_input := "help",
          progress := "Starting AI search..." })] ∧
    "step1" ∉ (["initiated", "running_step1", "running_step2", "completed",
      "failed"] : List String) ∧
    (∀ s ∈ run_search_states envTwoStep "help" "en" "j1" sessJ1,
      ∀ p ∈ s, p.2.progress = "Starting AI search...") := by
  decide

/-- C1 (amended): the job's visible `status` field only ever takes values
from `{initiated, step1, step2, completed}` on the modelled paths (the
literal `'error'` is additionally written only when the background thread
itself fails outside the search), the `"step1"`/`"step2"` markers being
written into `status` by the progress callback; the `progress` field (and
the stored input) of every session entry is left unchanged by the background
thread. -/
theorem status_values_and_progress (env : Env) (u lang requestId : String)
    (sess : Session) :
    (∀ st ∈ statusHistory (perform_search env u lang),
        st ∈ (["initiated", "step1", "step2", "completed"] : List String)) ∧
    (∀ k e1, List.lookup k (run_search env u lang requestId sess) = some e1 →
        ∃ e0, List.lookup k sess = some e0 ∧ e1.progress = e0.progress ∧
          e1.user_input = e0.user_input) := by
  constructor
  · intro st hst
    unfold statusHistory at hst
    rcases perform_search_progress env u lang with h | h <;> rw [h] at hst <;>
      simp at hst
    · rcases hst with rfl | rfl | rfl <;> decide
    · rcases hst with rfl | rfl | rfl | rfl <;> decide
  · intro k e1 h1
    rw [lookup_run_search] at h1
    by_cases hk : k = jobKey requestId
    · rw [if_pos hk] at h1
      cases h0 : List.lookup k sess with
      | none => rw [h0] at h1; cases h1
      | some e0 =>
        rw [h0] at h1
        simp at h1
        exact ⟨e0, rfl, by rw [← h1], by rw [← h1]⟩
    · rw [if_neg hk] at h1
      exact ⟨e1, h1, rfl, rfl⟩

/-- C1 (witness): the amended theorem applied to a concrete two-step run:
`"step2"` is among the statuses taken, and the final entry keeps the launch
`progress` text and input. -/
theorem status_values_witness :
    ("step2" ∈ statusHistory (perform_search envTwoStep "help" "en") ∧
      List.lookup "ai_search_j1"
          (run_search envTwoStep "help" "en" "j1" sessJ1) = some
        { status := "completed", user_input := "help",
          progress := "Starting AI search...",
          result := some (perform_search envTwoStep "help" "en").result }) ∧
    "step2" ∈ (["initiated", "step1", "step2", "completed"] : List String) ∧
    (∃ e0, List.lookup "ai_search_j1" sessJ1 = some e0 ∧
      ({ status := "completed", user_input := "help",
         progress := "Starting AI search...",
         result := some (perform_search envTwoStep "help" "en").result } :
        JobEntry).progress = e0.progress ∧
      ({ status := "completed", user_input := "help",
         progress := "Starting AI search...",
         result := some (perform_search envTwoStep "help" "en").result } :
        JobEntry).user_input = e0.user_input) :=
  ⟨⟨by decide, by decide⟩,
   (status_values_and_progress envTwoStep "help" "en" "j1" sessJ1).1 "step2"
     (by decide),
   (status_values_and_progress envTwoStep "help" "en" "j1" sessJ1).2
     "ai_search_j1" _ (by decide)⟩

/-! ## Claim C8: audit record contents -/

/-- C8 (counterexample): when the model echoes the user's free-text input
back as a candidate service key, the audit record of that job contains the
user's input string verbatim (in `services_requested`), so the record is not
free of the input for every job. -/
theorem audit_contains_input_counterexample :
    "my printer is broken" ∈
      auditStrings (perform_search envEchoInput "my printer is broken" "en").log := by
  decide

/-- C8 (amended): the audit record never stores the user's input or the raw
reply fields themselves: every string it contains is a fixed error text, an
error message produced by a collaborator call, or a service key taken from
the model's parsed JSON; in particular the input or raw reply can only occur
in the record if the parsed key lists (or a collaborator error message)
themselves mention that string. -/
theorem audit_strings_provenance (env : Env) (u lang : String) :
    ∀ s ∈ auditStrings (perform_search env u lang).log,
      s ∈ [emptyResponseMsg, step1NotJsonMsg, step2NotJsonMsg,
            serviceKeyErrorMsg] ∨
      (∃ ms e, env.callApi ms = .error e ∧ s = e) ∨
      (∃ t d1, env.parse1 t = .ok d1 ∧ s ∈ d1.services_to_check) ∨
      (∃ t d2 ks, env.parse2 t = .ok d2 ∧
        d2.recommended_services.mapM (fun o => List.lookup "service_key" o) =
          some ks ∧ SVal.s s ∈ ks) := by
  intro s hs
  revert hs
  unfold perform_search
  dsimp only
  split
  next e heq =>
    intro hs
    simp [searchFailure, auditStrings] at hs
    exact Or.inr (Or.inl ⟨step1Messages env u lang, e, heq, hs⟩)
  next r1 t1 heq1 =>
    split
    next hempty =>
      intro hs
      simp [searchFailure, auditStrings] at hs
      left
      simp [hs]
    next hempty =>
      split
      next heqp =>
        intro hs
        simp [searchFailure, auditStrings] at hs
        left
        simp [hs]
      next d1 heqp =>
        split
        next hstc =>
          intro hs
          simp [auditStrings] at hs
          exact Or.inr (Or.inr (Or.inl ⟨extractS r1, d1, heqp, hs⟩))
        next hstc =>
          split
          next e heq2 =>
            intro hs
            simp [searchFailure, auditStrings] at hs
            rcases hs with hs | hs
            · exact Or.inr (Or.inr (Or.inl ⟨extractS r1, d1, heqp, hs⟩))
            · exact Or.inr (Or.inl ⟨_, e, heq2, hs⟩)
          next r2 t2 heq2 =>
            split
            next heqp2 =>
              intro hs
              simp [searchFailure, auditStrings] at hs
              rcases hs with hs | hs
              · exact Or.inr (Or.inr (Or.inl ⟨extractS r1, d1, heqp, hs⟩))
              · left
                simp [hs]
            next d2 heqp2 =>
              split
              next heqm =>
                intro hs
                simp [searchFailure, auditStrings] at hs
                rcases hs with hs | hs
                · exact Or.inr (Or.inr (Or.inl ⟨extractS r1, d1, heqp, hs⟩))
                · left
                  simp [hs]
              next ks heqm =>
                intro hs
                simp [auditStrings] at hs
                rcases hs with hs | hs
                · exact Or.inr (Or.inr (Or.inl ⟨extractS r1, d1, heqp, hs⟩))
                · obtain ⟨v, hv, hvs⟩ := hs
                  have hv2 : v = SVal.s s := by
                    cases v <;> simp [svalStr] at hvs
                    rw [hvs]
                  exact Or.inr (Or.inr (Or.inr
                    ⟨extractS r2, d2, ks, heqp2, heqm, hv2 ▸ hv⟩))

/-- C8 (witness): in the failed run above, the one string the audit record
contains (the timeout message) is a collaborator-produced error message. -/
theorem audit_strings_provenance_witness :
    "AI API request timed out" ∈
      auditStrings (perform_search envApiError "help" "en").log ∧
    ("AI API request timed out" ∈
        [emptyResponseMsg, step1NotJsonMsg, step2NotJsonMsg,
          serviceKeyErrorMsg] ∨
      (∃ ms e, envApiError.callApi ms = .error e ∧
        "AI API request timed out" = e) ∨
      (∃ t d1, envApiError.parse1 t = .ok d1 ∧
        "AI API request timed out" ∈ d1.services_to_check) ∨
      (∃ t d2 ks, envApiError.parse2 t = .ok d2 ∧
        d2.recommended_services.mapM (fun o => List.lookup "service_key" o) =
          some ks ∧ SVal.s "AI API request timed out" ∈ ks)) :=
  ⟨by decide,
   audit_strings_provenance envApiError "help" "en" "AI API request timed out"
     (by decide)⟩

/-! ## Claim C7: failure handling -/

/-- C7 (counterexample): with the LLM call failing in step 1 (a timeout-style
exception), the job's stored session entry ends with status `'completed'` —
not `'failed'` (nor the code's `'error'` literal) — and its `error` field is
never set; the failure is only visible inside the stored result dict. -/
theorem failed_job_status_counterexample :
    (perform_search envApiError "help" "en").log.error_occurred = true ∧
    List.lookup "ai_search_j1" (run_search envApiError "help" "en" "j1" sessJ1) =
      some { status := "completed", user_input := "help",
             progress := "Starting AI search...",
             result := some
               { success := false, error := some "AI API request timed out" },
             error := none } ∧
    "completed" ≠ "failed" ∧ "completed" ≠ "error" := by
  decide

/-- C7 (amended): every exception raised during step 1 or step 2 (timeout,
transport error, JSON parse failure, collaborator error) is caught inside
the search: the audit record is still saved with `error_occurred = true`,
the exception's message verbatim as `error_message`, and the measured
duration; the returned dict carries `success = false` with the same message
as its `error`; no retry is attempted (at most one call per step).  The
background thread then stores this failure dict under session status
`'completed'` — the job's session entry does not enter a failed state (the
`'error'` status is reserved for failures of the thread itself outside the
search). -/
theorem search_failure_handling (env : Env) (u lang requestId : String)
    (sess : Session) (e0 : JobEntry)
    (hfail : (perform_search env u lang).result.success = false)
    (hent : List.lookup (jobKey requestId) sess = some e0) :
    (perform_search env u lang).log.error_occurred = true ∧
      (perform_search env u lang).log.error_message =
        (perform_search env u lang).result.error ∧
      (perform_search env u lang).result.error.isSome = true ∧
      (perform_search env u lang).log.saved = true ∧
      (perform_search env u lang).log.duration_seconds = some env.elapsed ∧
      (perform_search env u lang).apiCalls.length ≤ 2 ∧
      List.lookup (jobKey requestId) (run_search env u lang requestId sess) =
        some { e0 with
          status := "completed",
          result := some (perform_search env u lang).result } := by
  obtain ⟨a, b, c, d, e⟩ := perform_search_failure_spec env u lang hfail
  refine ⟨a, b, c, d, e, perform_search_apiCalls_le env u lang, ?_⟩
  rw [lookup_run_search, if_pos rfl, hent]
  rfl

/-- C7 (witness): the timeout environment satisfies the amended theorem's
hypotheses on the session holding job `j1`. -/
theorem search_failure_handling_witness :
    ((perform_search envApiError "help" "en").result.success = false ∧
      List.lookup (jobKey "j1") sessJ1 = some
        { status := "initiated", user_input := "help",
          progress := "Starting AI search..." }) ∧
    ((perform_search envApiError "help" "en").log.error_occurred = true ∧
      (perform_search envApiError "help" "en").log.error_message =
        (perform_search envApiError "help" "en").result.error ∧
      (perform_search envApiError "help" "en").result.error.isSome = true ∧
      (perform_search envApiError "help" "en").log.saved = true ∧
      (perform_search envApiError "help" "en").log.duration_seconds =
        some envApiError.elapsed ∧
      (perform_search envApiError "help" "en").apiCalls.length ≤ 2 ∧
      List.lookup (jobKey "j1") (run_search envApiError "help" "en" "j1" sessJ1) =
        some { ({ status := "initiated", user_input := "help",
                  progress := "Starting AI search..." } : JobEntry) with
          status := "completed",
          result := some (perform_search envApiError "help" "en").result }) :=
  ⟨⟨by decide, by decide⟩,
   search_failure_handling envApiError "help" "en" "j1" sessJ1 _
     (by decide) (by decide)⟩

/-! ## Claims C4 and C5: witnesses -/

/-- C4 (witness): a concrete run whose step-1 reply parses to an empty
candidate list completes triage-only with one API call. -/
theorem triage_only_witness :
    (envTriageOnly.callApi (step1Messages envTriageOnly "help" "en") =
        .ok ("triage", some 7) ∧
      extractS "triage" ≠ "" ∧
      envTriageOnly.parse1 (extractS "triage") = .ok {} ∧
      ({} : Step1Parsed).services_to_check = []) ∧
    perform_search envTriageOnly "help" "en" =
      { result :=
          { success := true, step1_only := some true,
            step1_completed := some true, step2_completed := some false,
            message := some (({} : Step1Parsed).preliminary_note),
            is_it_related := some (({} : Step1Parsed).is_it_related) },
        log :=
          { step1_completed := true, step2_needed := false,
            services_requested := some [], tokens_used_step1 := some 7,
            duration_seconds := some envTriageOnly.elapsed, saved := true },
        apiCalls := [step1Messages envTriageOnly "help" "en"],
        detailCalls := [], progressCalls := ["step1"] } := by
  refine ⟨⟨rfl, by decide, rfl, rfl⟩, ?_⟩
  exact step1_no_candidates_completes envTriageOnly "help" "en" "triage"
    (some 7) {} rfl (by decide) rfl rfl

/-- C5 (witness): a concrete run that reaches step 2 sends exactly the
three-message conversation. -/
theorem step2_conversation_witness :
    (envTwoStep.callApi (step1Messages envTwoStep "help" "en") =
        .ok ("r1", some 1) ∧
      extractS "r1" ≠ "" ∧
      envTwoStep.parse1 (extractS "r1") =
        .ok { services_to_check := ["CAT-S"] } ∧
      (["CAT-S"] : List String) ≠ []) ∧
    (perform_search envTwoStep "help" "en").apiCalls =
      [step1Messages envTwoStep "help" "en",
       [⟨"system", envTwoStep.renderStep1 (languageName "en")
           envTwoStep.categoriesText envTwoStep.servicesText "help"⟩,
        ⟨"assistant", "r1"⟩,
        ⟨"user", envTwoStep.renderStep2 (languageName "en") "help"
           (String.intercalate ", " ["CAT-S"])
           (envTwoStep.formatDetails (envTwoStep.detailsFor ["CAT-S"]))⟩]] := by
  refine ⟨⟨rfl, by decide, rfl, by decide⟩, ?_⟩
  exact step2_conversation envTwoStep "help" "en" "r1" (some 1)
    { services_to_check := ["CAT-S"] } rfl (by decide) rfl (by decide)

/-- C10 (witness): enabled flag set but API URL unset: a POST launch with
non-empty input is still rejected with 503 and no session entry. -/
theorem launch_rejected_when_disabled_witness :
    (({ api_url := none, api_key := some "key", enabled := true } :
        AISettings).api_url = none) ∧
    ai_search_initiate
        { api_url := none, api_key := some "key", enabled := true }
        "POST" (.ok "help me") "id1" [] =
      ⟨.rejected 503 "AI search is not enabled", [], false⟩ :=
  ⟨rfl, launch_rejected_when_disabled _ _ _ _ (Or.inr (Or.inl rfl))⟩

end ScView
